import Mathlib

/-!
Verification development for the contextual-retrieval subsystem of the
`ai-llm-learning` repository.

Two engines are embedded from the Python sources:

* the fact memory store backed by Redis/RediSearch
  (`long-term-memory-redis/main.py`, class `RedisMemoryStore`), and
* the hybrid retriever with Reciprocal Rank Fusion
  (`rag-pgvector/main.py`, `HYBRID_SEARCH_SQL` and
  `PostgresHybridRetriever._get_relevant_documents`).

Conventions of the embedding:

* Python strings are Lean `String`s; the Python `str` methods used by the
  source (`strip`, `lower`, `split`, `isalnum`, `join`, `replace`) are
  modelled character-wise on `String.data` (`pyStrip`, `pyLower`, ...).
  Lean's character predicates are ASCII-accurate, which covers the
  diacritic-stripped text the source feeds them.
* `unicodedata.normalize("NFKD", ·)` followed by dropping combining
  characters is modelled by `stripDiacritics`: a character-wise NFKD
  decomposition table for the precomposed Latin letters of the two
  supported natural languages (identity on all other characters),
  followed by removal of the combining-diacritics block.  No theorem
  below depends on the completeness of that table.
* Redis hashes keyed `memory:<uuid>` are modelled as an insertion-ordered
  list of `Memory` records; the random uuid supply is modelled as a fresh
  counter (`Store.nextId`).  The unused `timestamp` field is omitted.
* The RediSearch `FT.SEARCH` call on the tag-only query
  `@user_id:{...}` (owner scoping, `paging(0, 100)`) is modelled
  concretely by `get_all_memories`; the full-text call on the composed
  keyword query, whose BM25 ranking is external, is a parameter
  `ft : String → Nat → FtOutcome` of `search_memories`, which also
  carries the two error classes `redis.ResponseError` and
  `redis.ConnectionError` of the Python client.
-/

/-! ## Python string primitives -/

/-- Model of Python `str.strip()`: remove leading and trailing whitespace. -/
def pyStrip (s : String) : String :=
  ⟨((s.data.dropWhile Char.isWhitespace).reverse.dropWhile Char.isWhitespace).reverse⟩

/-- Model of Python `str.lower()` (character-wise case folding). -/
def pyLower (s : String) : String :=
  ⟨s.data.map Char.toLower⟩

/-- Model of Python `str.split()` with no argument: whitespace-delimited
units, with no empty units. -/
def pySplitWords (s : String) : List (List Char) :=
  (s.data.splitOnP Char.isWhitespace).filter (fun w => !w.isEmpty)

/-! ## Diacritic stripping (`unicodedata` model) -/

/-- True on the combining-diacritical-marks block; models
`unicodedata.combining(c) != 0` for the marks produced by
`nfkdDecompose`. -/
def isCombining (c : Char) : Bool :=
  0x300 ≤ c.toNat && c.toNat ≤ 0x36F

/-- Character-wise NFKD decomposition restricted to the precomposed Latin
letters of the supported languages; every other character decomposes to
itself.  Models `unicodedata.normalize("NFKD", ·)` on the inputs the
program meets. -/
def nfkdDecompose (c : Char) : List Char :=
  match c with
  | 'á' => ['a', '\u0301'] | 'é' => ['e', '\u0301'] | 'í' => ['i', '\u0301']
  | 'ó' => ['o', '\u0301'] | 'ú' => ['u', '\u0301'] | 'ý' => ['y', '\u0301']
  | 'à' => ['a', '\u0300'] | 'è' => ['e', '\u0300'] | 'ì' => ['i', '\u0300']
  | 'ò' => ['o', '\u0300'] | 'ù' => ['u', '\u0300']
  | 'â' => ['a', '\u0302'] | 'ê' => ['e', '\u0302'] | 'î' => ['i', '\u0302']
  | 'ô' => ['o', '\u0302'] | 'û' => ['u', '\u0302']
  | 'ä' => ['a', '\u0308'] | 'ë' => ['e', '\u0308'] | 'ï' => ['i', '\u0308']
  | 'ö' => ['o', '\u0308'] | 'ü' => ['u', '\u0308'] | 'ÿ' => ['y', '\u0308']
  | 'ã' => ['a', '\u0303'] | 'ñ' => ['n', '\u0303'] | 'õ' => ['o', '\u0303']
  | 'ç' => ['c', '\u0327']
  | 'Á' => ['A', '\u0301'] | 'É' => ['E', '\u0301'] | 'Í' => ['I', '\u0301']
  | 'Ó' => ['O', '\u0301'] | 'Ú' => ['U', '\u0301'] | 'Ý' => ['Y', '\u0301']
  | 'À' => ['A', '\u0300'] | 'È' => ['E', '\u0300'] | 'Ì' => ['I', '\u0300']
  | 'Ò' => ['O', '\u0300'] | 'Ù' => ['U', '\u0300']
  | 'Â' => ['A', '\u0302'] | 'Ê' => ['E', '\u0302'] | 'Î' => ['I', '\u0302']
  | 'Ô' => ['O', '\u0302'] | 'Û' => ['U', '\u0302']
  | 'Ä' => ['A', '\u0308'] | 'Ë' => ['E', '\u0308'] | 'Ï' => ['I', '\u0308']
  | 'Ö' => ['O', '\u0308'] | 'Ü' => ['U', '\u0308']
  | 'Ã' => ['A', '\u0303'] | 'Ñ' => ['N', '\u0303'] | 'Õ' => ['O', '\u0303']
  | 'Ç' => ['C', '\u0327']
  | _ => [c]

/-- Lines 198-201 of `long-term-memory-redis/main.py`: NFKD-normalize the
text and drop every combining character. -/
def stripDiacritics (s : String) : String :=
  ⟨((s.data.map nfkdDecompose).flatten).filter (fun c => !isCombining c)⟩

/-! ## The fixed stop-word set (`RedisMemoryStore._STOP_WORDS`) -/

/-- Stop words in Spanish and English, transcribed from lines 174-190 of
`long-term-memory-redis/main.py` (the Python `frozenset` literal; the
entries `"a"` and `"so"` occur in both language groups). -/
def STOP_WORDS : List String :=
  [ -- Spanish
    "a", "al", "algo", "como", "con", "cual", "de", "del", "el",
    "en", "es", "eso", "esta", "esto", "fue", "ha", "hay", "la",
    "las", "le", "lo", "los", "me", "mi", "muy", "no", "nos", "o",
    "para", "pero", "por", "que", "se", "si", "sin", "so", "son",
    "su", "te", "tu", "un", "una", "uno", "y", "ya",
    -- English
    "a", "an", "and", "are", "as", "at", "be", "but", "by", "do",
    "for", "from", "has", "have", "he", "her", "his", "how", "i",
    "if", "in", "is", "it", "its", "my", "not", "of", "on", "or",
    "our", "she", "so", "that", "the", "their", "them", "they",
    "this", "to", "was", "we", "what", "when", "which", "who",
    "will", "with", "you", "your" ]

/-! ## Keyword extraction (`RedisMemoryStore._extract_keywords`) -/

/-- Line 206: `clean = "".join(c for c in word if c.isalnum())`. -/
def cleanWord (w : List Char) : List Char :=
  w.filter Char.isAlphanum

/-- Line 207: the keep condition
`clean and clean.lower() not in self._STOP_WORDS and len(clean) > 1`,
evaluated on the cleaned unit. -/
def keepToken (clean : List Char) : Bool :=
  !clean.isEmpty
    && !STOP_WORDS.contains (String.mk (clean.map Char.toLower))
    && decide (clean.length > 1)

/-- Lines 192-210 of `long-term-memory-redis/main.py`: strip diacritics,
split on whitespace, and run the append loop of lines 204-208 over the
units. -/
def extract_keywords (text : String) : List String :=
  let ascii_text := stripDiacritics text
  (pySplitWords ascii_text).foldl
    (fun words w =>
      let clean := cleanWord w
      if keepToken clean then words ++ [String.mk clean] else words)
    []

/-! ## Query escaping (`RedisMemoryStore._escape_query`) -/

/-- Line 290: the character set of the Python raw string
`r"@.{}()[]!|&~*^$\-:+=><%#\"'/"` (the backslash occurs twice in the
source literal; set membership is unaffected). -/
def special_chars : List Char :=
  ['@', '.', '\x7b', '\x7d', '(', ')', '[', ']', '!', '|', '&', '~',
   '*', '^', '$', '\\', '-', ':', '+', '=', '>', '<', '%', '#',
   '\\', '\x22', '\x27', '/']

/-- Lines 287-297 of `long-term-memory-redis/main.py`: per character,
emit `"\\" + char` when the character is special, the character itself
otherwise, and join the pieces. -/
def escape_query (text : String) : String :=
  String.join (text.data.map
    (fun char =>
      if special_chars.contains char then String.mk ['\\', char]
      else String.mk [char]))

/-- Line 114: `user_id.replace("-", "\\-")`, the tag-syntax escaping of
the owner identifier done in `RedisMemoryStore.__init__`. -/
def escaped_user_id (u : String) : String :=
  ⟨(u.data.map (fun c => if c = '-' then ['\\', '-'] else [c])).flatten⟩

/-! ## The fact store state -/

/-- One stored memory: the fields of the Redis hash written by
`save_memory` that the retrieval logic reads (the `timestamp` field is
written but never read back by the program and is omitted). -/
structure Memory where
  content : String
  user_id : String
deriving DecidableEq, Repr

/-- The Redis keyspace under the prefix `memory:`, as an
insertion-ordered list of facts; `nextId` models the fresh-uuid supply
of line 158 as a deterministic counter. -/
structure Store where
  facts : List Memory
  nextId : Nat
deriving DecidableEq, Repr

/-- Lines 256-269 (`get_all_memories`): the `FT.SEARCH` tag query
`@user_id:{...}` with `paging(0, 100)` and content projection — all
facts of the owner in store order, truncated to the first 100. -/
def get_all_memories (s : Store) (u : String) : List String :=
  (((s.facts.filter (fun f => f.user_id == u)).map Memory.content).take 100)

/-- Lines 144-168 (`save_memory`): normalize the content by trimming and
case-folding, scan the owner's facts (as returned by
`get_all_memories`) for an exact normalized match; on a match return the
empty string and leave the store unchanged, otherwise append the fact
and return the fresh key. -/
def save_memory (s : Store) (u : String) (content : String) : Store × String :=
  let existing := get_all_memories s u
  let normalized := pyLower (pyStrip content)
  if existing.any (fun mem => pyLower (pyStrip mem) == normalized) then
    (s, "")
  else
    ({ facts := s.facts ++ [⟨content, u⟩], nextId := s.nextId + 1 },
     "memory:" ++ toString s.nextId)

/-- Lines 271-280 (`clear_memories`): the scan-and-delete loop over every
key under the prefix, deleting the hashes whose `user_id` field matches
and counting the deletions. -/
def clearLoop (u : String) : List Memory → List Memory × Nat
  | [] => ([], 0)
  | f :: fs =>
    let r := clearLoop u fs
    if f.user_id == u then (r.1, r.2 + 1) else (f :: r.1, r.2)

/-- Lines 271-280 of `long-term-memory-redis/main.py`, assembled: the
remaining store and the count of removed facts. -/
def clear_memories (s : Store) (u : String) : Store × Nat :=
  let r := clearLoop u s.facts
  ({ s with facts := r.1 }, r.2)

/-! ## Search (`RedisMemoryStore.search_memories`) -/

/-- Outcome of one `FT.SEARCH` call through the Python Redis client:
either the projected contents, or a `redis.ResponseError` (malformed
query rejected by the engine), or a `redis.ConnectionError`
(persistence-layer connectivity failure; not a subclass of
`ResponseError`). -/
inductive FtOutcome where
  | ok (docs : List String)
  | responseError (msg : String)
  | connectionError (msg : String)
deriving DecidableEq, Repr

/-- Error surfaced by `search_memories` to its caller: only the
connectivity failure escapes (the `except redis.ResponseError` handler
of line 252 does not catch it). -/
inductive SearchError where
  | connectionError (msg : String)
deriving DecidableEq, Repr

/-- Lines 231-235: the composed full-text query — every keyword escaped,
joined with `" | "`, scoped by the owner tag. -/
def composed_query (u : String) (keywords : List String) : String :=
  let escaped_terms := keywords.map escape_query
  let text_query := String.intercalate " | " escaped_terms
  "@user_id:\x7b" ++ escaped_user_id u ++ "\x7d (" ++ text_query ++ ")"

/-- Lines 212-254 (`search_memories`): extract keywords from the query;
with no keywords fall back to `get_all_memories()[:max_results]`;
otherwise run the composed disjunctive query through the external
full-text engine `ft` with `paging(0, max_results)`.  A
`ResponseError` from the engine is caught and degrades to `[]`; a
`ConnectionError` propagates. -/
def search_memories (ft : String → Nat → FtOutcome) (s : Store) (u : String)
    (query : String) (max_results : Nat) : Except SearchError (List String) :=
  let keywords := extract_keywords query
  if keywords.isEmpty then
    .ok ((get_all_memories s u).take max_results)
  else
    match ft (composed_query u keywords) max_results with
    | .ok docs => .ok docs
    | .responseError _ => .ok []
    | .connectionError e => .error (.connectionError e)

/-! ## Rank fusion (`rag-pgvector/main.py`, `HYBRID_SEARCH_SQL`)

The two CTEs (`semantic_search`, `keyword_search`) rank the catalog by
embedding distance and by `ts_rank_cd`; both rankings are produced by
external collaborators (pgvector and the PostgreSQL full-text engine)
and enter the embedding as rank-ordered `(id, rank)` lists.  `RANK()`
runs over the products table, so ids are unique within each list; the
`FULL OUTER JOIN ... ON semantic_search.id = keyword_search.id` is
embedded with first-match lookup, which agrees with SQL join semantics
on such lists. -/

/-- Rank of an id in a rank list (`none` when the id is absent), i.e.
the value joined in by `ON semantic_search.id = keyword_search.id`. -/
def rankOf (l : List (Nat × Nat)) (id : Nat) : Option Nat :=
  (l.find? (fun p => p.1 == id)).map (fun p => p.2)

/-- One `COALESCE(1.0 / (k + rank), 0.0)` term of the SELECT list. -/
def rrfTerm (k : ℚ) : Option Nat → ℚ
  | some r => 1 / (k + (r : ℚ))
  | none => 0

/-- The row set of the `FULL OUTER JOIN` of the two CTEs: every row of
`a` paired with its matching rank in `b`, then the rows of `b` with no
match in `a`. -/
def fullOuterJoin (a b : List (Nat × Nat)) :
    List (Nat × Option Nat × Option Nat) :=
  a.map (fun p => (p.1, some p.2, rankOf b p.1)) ++
    (b.filter (fun p => rankOf a p.1 == none)).map
      (fun p => (p.1, (none : Option Nat), some p.2))

/-- The SELECT list of `HYBRID_SEARCH_SQL` before `ORDER BY`/`LIMIT`:
`COALESCE(semantic_search.id, keyword_search.id)` with the summed
reciprocal-rank score. -/
def fuseRows (k : ℚ) (a b : List (Nat × Nat)) : List (Nat × ℚ) :=
  (fullOuterJoin a b).map (fun r => (r.1, rrfTerm k r.2.1 + rrfTerm k r.2.2))

/-- Ids appearing in either ranking, in the order first encountered
scanning `a` then `b` (the row order of `fullOuterJoin`). -/
def fusedIds (a b : List (Nat × Nat)) : List Nat :=
  (fullOuterJoin a b).map (fun r => r.1)

/-- The fused score the query assigns to an id: the score of its joined
row. -/
def fusedScore (k : ℚ) (a b : List (Nat × Nat)) (id : Nat) : Option ℚ :=
  ((fuseRows k a b).find? (fun p => p.1 == id)).map (fun p => p.2)

/-- Score dictated by the spec's scoring rule: `1/(k + rank)` per list
containing the id, summed, `0` contributed for absence. -/
def specScore (k : ℚ) (a b : List (Nat × Nat)) (id : Nat) : ℚ :=
  rrfTerm k (rankOf a id) + rrfTerm k (rankOf b id)

/-- Descending-score comparison used to model `ORDER BY score DESC`. -/
def scoreGe (p q : Nat × ℚ) : Bool :=
  decide (q.2 ≤ p.2)

/-- Executable model of `ORDER BY score DESC LIMIT %(limit)s`: one
refinement of the SQL semantics, obtained with a (stable) merge sort.
The SQL itself fixes no order among rows with equal score — see
`isValidFuseOutput` for the embedding of exactly what the SQL
guarantees. -/
def fuse (k : ℚ) (a b : List (Nat × Nat)) (limit : Nat) : List (Nat × ℚ) :=
  ((fuseRows k a b).mergeSort scoreGe).take limit

/-- Relational embedding of `ORDER BY score DESC LIMIT %(limit)s`: an
output is valid iff it is some permutation of the joined rows sorted by
non-increasing score and truncated to `limit` — ids are unique join
ids carrying their fused scores, scores are non-increasing, the length
is `limit` capped by the row count, and every dropped row scores no
higher than every kept row.  PostgreSQL guarantees nothing beyond
this: the relative order of equal-score rows is unspecified. -/
def isValidFuseOutput (k : ℚ) (a b : List (Nat × Nat)) (limit : Nat)
    (out : List (Nat × ℚ)) : Prop :=
  (out.map (fun p => p.1)).Nodup ∧
  (∀ p ∈ out, p.1 ∈ fusedIds a b ∧ p.2 = specScore k a b p.1) ∧
  out.length = min limit (fusedIds a b).length ∧
  List.Chain' (fun p q : Nat × ℚ => q.2 ≤ p.2) out ∧
  (∀ id ∈ fusedIds a b, id ∉ out.map (fun p => p.1) →
    ∀ p ∈ out, specScore k a b id ≤ p.2)

/-! ## Hybrid retriever (`PostgresHybridRetriever._get_relevant_documents`) -/

/-- Catalog record of the `products` table (the stored embedding vector
is consumed only by the external semantic ranking and is not carried
here). -/
structure Product where
  id : Nat
  name : String
  category : String
  price : ℚ
  description : String
deriving DecidableEq, Repr

/-- Price rendered with two decimal places, as by the Python format
specifier `{row[2]:.2f}` on the catalog's non-negative prices. -/
def formatPrice (q : ℚ) : String :=
  let cents := (round (q * 100) : ℤ).toNat
  toString (cents / 100) ++ "." ++
    (if cents % 100 < 10 then "0" else "") ++ toString (cents % 100)

/-- Line 298-299: the display line
`- **{name}** ({category}, ${price:.2f}): {description}`. -/
def formatDoc (p : Product) : String :=
  "- **" ++ p.name ++ "** (" ++ p.category ++ ", $" ++ formatPrice p.price
    ++ "): " ++ p.description

/-- Lines 263-314 (`_get_relevant_documents`): run `HYBRID_SEARCH_SQL`
with `k = 60` and `limit = max_results` over the two exterior rankings,
keep the returned ids, and hydrate each id by primary-key lookup into a
formatted document (an id with no row is skipped).  The query embedding
request and the two CTE rankings are the external collaborators
`semantic` and `keyword`; each CTE also caps its candidate window at 20
before fusion, upstream of this function. -/
def get_relevant_documents (db : List Product)
    (semantic keyword : List (Nat × Nat)) (max_results : Nat) : List String :=
  let result_ids := (fuse 60 semantic keyword max_results).map (fun p => p.1)
  result_ids.filterMap
    (fun pid => (db.find? (fun p => p.id == pid)).map formatDoc)

/-! ## Concrete fixtures used by witnesses and counterexamples -/

/-- The store with no memories. -/
def emptyStore : Store := ⟨[], 0⟩

/-- A store with two owners' facts. -/
def twoOwnerStore : Store :=
  ⟨[⟨"A1", "alice"⟩, ⟨"B1", "bob"⟩, ⟨"A2", "alice"⟩], 3⟩

/-- A store holding 100 distinct facts for owner `"u"` — exactly the
`paging(0, 100)` window of `get_all_memories`. -/
def hundredStore : Store :=
  ⟨(List.range 100).map (fun i => ⟨"f" ++ toString i, "u"⟩), 100⟩

/-- Full-text engine that accepts everything and matches nothing. -/
def ftOkEmpty : String → Nat → FtOutcome := fun _ _ => .ok []

/-- Full-text engine that rejects every query as malformed
(`redis.ResponseError`). -/
def ftSyntaxErr : String → Nat → FtOutcome :=
  fun _ _ => .responseError "Syntax error at offset 1"

/-- Full-text engine whose connection is down
(`redis.ConnectionError`). -/
def ftDown : String → Nat → FtOutcome :=
  fun _ _ => .connectionError "Connection refused"

/-- Spec example ranking `list_a = [(A,1),(B,2)]` with `A = 0`, `B = 1`. -/
def rrfExampleA : List (Nat × Nat) := [(0, 1), (1, 2)]

/-- Spec example ranking `list_b = [(B,1),(C,2)]` with `B = 1`, `C = 2`. -/
def rrfExampleB : List (Nat × Nat) := [(1, 1), (2, 2)]

/-- A one-row semantic ranking producing an equal-score tie with
`tieB`. -/
def tieA : List (Nat × Nat) := [(1, 1)]

/-- A one-row keyword ranking producing an equal-score tie with
`tieA`. -/
def tieB : List (Nat × Nat) := [(2, 1)]

/-- A two-product catalog. -/
def demoCatalog : List Product :=
  [⟨1, "Botas de montana", "Calzado", 99.5, "botas impermeables"⟩,
   ⟨2, "Bastones trekking", "Equipo", 25, "bastones de aluminio"⟩]

/-! ## Helper lemmas: the keyword-extraction loop -/

/-- The append loop of `_extract_keywords` is the filtered map of the
cleaned units. -/
lemma extract_keywords_foldl (l : List (List Char)) (acc : List String) :
    l.foldl
      (fun words w =>
        let clean := cleanWord w
        if keepToken clean then words ++ [String.mk clean] else words)
      acc
      = acc ++ ((l.map cleanWord).filter keepToken).map String.mk := by
  induction l generalizing acc with
  | nil => simp
  | cons w ws ih =>
    simp only [List.foldl_cons, List.map_cons, List.filter_cons]
    by_cases h : keepToken (cleanWord w)
    · rw [if_pos h, ih, if_pos h]
      simp
    · rw [if_neg h, ih, if_neg h]

/-- Closed form of `extract_keywords`. -/
lemma extract_keywords_eq (text : String) :
    extract_keywords text =
      (((pySplitWords (stripDiacritics text)).map cleanWord).filter
        keepToken).map String.mk := by
  rw [extract_keywords]
  exact (extract_keywords_foldl _ []).trans (List.nil_append _)

/-- The source's keep condition, read as a proposition in the claim's
order: non-empty, longer than one character, lowercased form outside the
stop-word set. -/
lemma keepToken_iff (w : List Char) :
    keepToken w = true ↔
      w ≠ [] ∧ 1 < w.length ∧ String.mk (w.map Char.toLower) ∉ STOP_WORDS := by
  unfold keepToken
  simp only [Bool.and_eq_true, Bool.not_eq_true', List.isEmpty_eq_false,
    decide_eq_true_eq, gt_iff_lt]
  constructor
  · rintro ⟨⟨hne, hstop⟩, hlen⟩
    refine ⟨hne, hlen, fun hmem => ?_⟩
    have hc : STOP_WORDS.contains (String.mk (w.map Char.toLower)) = true :=
      (List.elem_iff).mpr hmem
    rw [hc] at hstop
    exact Bool.true_eq_false.mp hstop
  · rintro ⟨hne, hlen, hstop⟩
    refine ⟨⟨hne, ?_⟩, hlen⟩
    cases hc : STOP_WORDS.contains (String.mk (List.map Char.toLower w)) with
    | false => rfl
    | true => exact absurd ((List.elem_iff).mp hc) hstop

/-- Bool/Prop bridge for the keep condition. -/
lemma keepToken_eq_decide (w : List Char) :
    keepToken w =
      decide (w ≠ [] ∧ 1 < w.length ∧
        String.mk (w.map Char.toLower) ∉ STOP_WORDS) := by
  cases hk : keepToken w with
  | true =>
    exact ((decide_eq_true_eq (p := _)).mpr ((keepToken_iff w).mp hk)).symm
  | false =>
    symm
    rw [decide_eq_false_iff_not]
    intro hP
    rw [(keepToken_iff w).mpr hP] at hk
    exact Bool.true_eq_false.mp hk

/-- Claim C6 — Normalizer filter and order contract: for every input
text, `extract_keywords` returns exactly the whitespace-delimited units
of the diacritic-stripped input, each with its non-alphanumeric
characters removed, keeping a unit if and only if it is non-empty, its
length is greater than 1, and its lowercased form is not in the fixed
stop-word set — in original relative order and without removing
duplicates. -/
theorem C6_normalizer_filter_order_contract (text : String) :
    extract_keywords text =
      (((pySplitWords (stripDiacritics text)).map cleanWord).filter
        (fun w => decide (w ≠ [] ∧ 1 < w.length ∧
          String.mk (w.map Char.toLower) ∉ STOP_WORDS))).map String.mk := by
  rw [extract_keywords_eq]
  congr 1
  exact List.filter_congr (fun w _ => keepToken_eq_decide w)

/-- Claim C5, counterexample: the normalizer does not lowercase its
output.  On the input `"Mi ciudad favorita es Tokio"` the returned
token `"Tokio"` is not fixed under case folding, refuting the claim
that every returned token is lowercase. -/
theorem C5_counterexample :
    ¬ (∀ t ∈ extract_keywords "Mi ciudad favorita es Tokio", pyLower t = t) := by
  decide

/-- Claim C5 as amended — the normalizer lowercases only for the
stop-word membership test: every returned token is non-empty, longer
than one character, consists of alphanumeric characters of the
diacritic-stripped input, and has its LOWERCASED FORM outside the
stop-word set, but the token itself keeps its original case. -/
theorem C5_amended_normalizer_output (text : String) (t : String)
    (ht : t ∈ extract_keywords text) :
    t ≠ "" ∧ 1 < t.length ∧ pyLower t ∉ STOP_WORDS ∧
      t.data.all Char.isAlphanum = true := by
  rw [extract_keywords_eq] at ht
  obtain ⟨w, hw, rfl⟩ := List.mem_map.mp ht
  obtain ⟨hwmem, hkeep⟩ := List.mem_filter.mp hw
  obtain ⟨hne, hlen, hstop⟩ := (keepToken_iff w).mp hkeep
  obtain ⟨w0, _, rfl⟩ := List.mem_map.mp hwmem
  refine ⟨?_, hlen, hstop, ?_⟩
  · intro h
    exact hne (by simpa [String.ext_iff] using h)
  · rw [List.all_eq_true]
    intro c hc
    exact (List.mem_filter.mp hc).2

/-- Witness for C5's amended theorem at the token `"ciudad"` of a
concrete query. -/
theorem C5_amended_witness :
    ("ciudad" ∈ extract_keywords "Mi ciudad favorita es Tokio") ∧
      ("ciudad" ≠ "" ∧ 1 < "ciudad".length ∧ pyLower "ciudad" ∉ STOP_WORDS ∧
        "ciudad".data.all Char.isAlphanum = true) :=
  ⟨by decide,
   C5_amended_normalizer_output "Mi ciudad favorita es Tokio" "ciudad" (by decide)⟩

/-! ## Helper lemmas: joining and escaping -/

/-- Data of a folded string concatenation. -/
lemma foldl_append_data (l : List String) (acc : String) :
    (l.foldl (fun r s => r ++ s) acc).data
      = acc.data ++ (l.map String.data).flatten := by
  induction l generalizing acc with
  | nil => simp
  | cons s ss ih =>
    simp only [List.foldl_cons, List.map_cons, List.flatten_cons, ih,
      String.data_append]
    rw [List.append_assoc]

/-- Data of `String.join`. -/
lemma join_data (l : List String) :
    (String.join l).data = (l.map String.data).flatten :=
  (foldl_append_data l "").trans (by rw [show ("" : String).data = [] from rfl, List.nil_append])

/-- Claim C8 — Query-syntax escaping: for every token, `_escape_query`
backslash-prefixes every character of the fixed special-character set
of the RediSearch syntax and passes every other character through
unchanged; concretely, `"a-b.c"` becomes `"a\-b\.c"`.  These escaped
tokens are what `search_memories` interpolates into the composed
full-text query (`composed_query`). -/
theorem C8_escape_query_characterisation :
    (∀ text : String,
      (escape_query text).data =
        text.data.flatMap
          (fun c => if c ∈ special_chars then ['\\', c] else [c])) ∧
    escape_query "a-b.c" = "a\\-b\\.c" := by
  constructor
  · intro text
    rw [escape_query, join_data, List.flatMap_def, List.map_map]
    congr 1
    apply List.map_congr_left
    intro c _
    by_cases h : c ∈ special_chars
    · rw [Function.comp_apply, if_pos ((List.elem_iff).mpr h), if_pos h]
    · rw [Function.comp_apply, if_neg (fun hc => h ((List.elem_iff).mp hc)),
        if_neg h]
  · decide

/-! ## Fact-store theorems: fallback, error handling, clear -/

/-- Claim C3 — Empty-keyword fallback: whenever normalizing the query
leaves no tokens (empty or whitespace-only queries included),
`search_memories` returns `get_all_memories()[:max_results]` — the
owner's full fact list truncated to the cap — rather than an empty
result, for every full-text engine, store, owner and cap. -/
theorem C3_empty_keyword_fallback (ft : String → Nat → FtOutcome) (s : Store)
    (u query : String) (n : Nat) (h : extract_keywords query = []) :
    search_memories ft s u query n = .ok ((get_all_memories s u).take n) := by
  simp [search_memories, h]

/-- Witness for C3 at the whitespace-only query `"   "` on a concrete
store. -/
theorem C3_witness :
    extract_keywords "   " = [] ∧
      search_memories ftOkEmpty twoOwnerStore "alice" "   " 1
        = .ok ((get_all_memories twoOwnerStore "alice").take 1) :=
  ⟨by decide,
   C3_empty_keyword_fallback ftOkEmpty twoOwnerStore "alice" "   " 1 (by decide)⟩

/-- Claim C10 — Search error degradation: when the query has surviving
keywords, a `redis.ResponseError` from the full-text engine on the
composed query is caught and the search returns the empty list, while a
`redis.ConnectionError` is not caught and propagates to the caller as
an error distinct from an empty result. -/
theorem C10_search_error_degradation (ft : String → Nat → FtOutcome)
    (s : Store) (u query : String) (n : Nat)
    (hk : extract_keywords query ≠ []) :
    (∀ e, ft (composed_query u (extract_keywords query)) n = .responseError e →
        search_memories ft s u query n = .ok []) ∧
    (∀ e, ft (composed_query u (extract_keywords query)) n = .connectionError e →
        search_memories ft s u query n = .error (.connectionError e)) := by
  have hbool : (extract_keywords query).isEmpty = false :=
    List.isEmpty_eq_false.mpr hk
  constructor <;> intro e hft <;>
    simp [search_memories, hbool, hft]

/-- Witness for C10: a concrete rejecting engine degrades to `ok []`, a
concrete broken connection surfaces as an error. -/
theorem C10_witness :
    extract_keywords "Tokio" ≠ [] ∧
      search_memories ftSyntaxErr emptyStore "u" "Tokio" 5 = .ok [] ∧
      search_memories ftDown emptyStore "u" "Tokio" 5
        = .error (.connectionError "Connection refused") :=
  ⟨by decide,
   (C10_search_error_degradation ftSyntaxErr emptyStore "u" "Tokio" 5
     (by decide)).1 "Syntax error at offset 1" rfl,
   (C10_search_error_degradation ftDown emptyStore "u" "Tokio" 5
     (by decide)).2 "Connection refused" rfl⟩

/-- Characterization of the scan-and-delete loop of `clear_memories`. -/
lemma clearLoop_eq (u : String) (l : List Memory) :
    clearLoop u l =
      (l.filter (fun f => !(f.user_id == u)),
       (l.filter (fun f => f.user_id == u)).length) := by
  induction l with
  | nil => rfl
  | cons f fs ih =>
    simp only [clearLoop, ih, List.filter_cons]
    cases hf : (f.user_id == u) with
    | true => simp [hf]
    | false => simp [hf]

/-- Claim C9 — Clear is owner-scoped and complete: `clear_memories u1`
deletes every fact owned by `u1`, returns the exact number of facts it
removed, and leaves the facts of every other owner `u2` (and what
`get_all_memories` returns for `u2`) unchanged. -/
theorem C9_clear_owner_scoped (s : Store) (u1 u2 : String) (h : u1 ≠ u2) :
    (clear_memories s u1).1.facts.filter (fun f => f.user_id == u1) = [] ∧
    (clear_memories s u1).2
      = (s.facts.filter (fun f => f.user_id == u1)).length ∧
    (clear_memories s u1).1.facts.filter (fun f => f.user_id == u2)
      = s.facts.filter (fun f => f.user_id == u2) ∧
    get_all_memories (clear_memories s u1).1 u2 = get_all_memories s u2 := by
  have hfacts : (clear_memories s u1).1.facts
      = s.facts.filter (fun f => !(f.user_id == u1)) := by
    simp [clear_memories, clearLoop_eq]
  have hcount : (clear_memories s u1).2
      = (s.facts.filter (fun f => f.user_id == u1)).length := by
    simp [clear_memories, clearLoop_eq]
  have hframe : (s.facts.filter (fun f => !(f.user_id == u1))).filter
        (fun f => f.user_id == u2)
      = s.facts.filter (fun f => f.user_id == u2) := by
    rw [List.filter_filter]
    apply List.filter_congr
    intro f _
    cases hf2 : (f.user_id == u2) with
    | true =>
      have h2 : f.user_id = u2 := eq_of_beq hf2
      have hne : (f.user_id == u1) = false :=
        beq_eq_false_iff_ne.mpr (fun hh => h (hh.symm.trans h2))
      simp [hf2, hne]
    | false => simp [hf2]
  refine ⟨?_, hcount, ?_, ?_⟩
  · rw [hfacts, List.filter_filter]
    apply List.filter_eq_nil_iff.mpr
    intro f _
    simp
  · rw [hfacts]
    exact hframe
  · unfold get_all_memories
    rw [hfacts, hframe]

/-- Witness for C9 on a concrete two-owner store. -/
theorem C9_witness :
    ("alice" ≠ "bob") ∧
      ((clear_memories twoOwnerStore "alice").1.facts.filter
          (fun f => f.user_id == "alice") = [] ∧
        (clear_memories twoOwnerStore "alice").2
          = (twoOwnerStore.facts.filter
              (fun f => f.user_id == "alice")).length ∧
        (clear_memories twoOwnerStore "alice").1.facts.filter
            (fun f => f.user_id == "bob")
          = twoOwnerStore.facts.filter (fun f => f.user_id == "bob") ∧
        get_all_memories (clear_memories twoOwnerStore "alice").1 "bob"
          = get_all_memories twoOwnerStore "bob") :=
  ⟨by decide, C9_clear_owner_scoped twoOwnerStore "alice" "bob" (by decide)⟩

/-! ## Fact-store theorems: save deduplication -/

/-- With at most 100 facts for the owner, the `paging(0, 100)` window of
`get_all_memories` covers them all. -/
lemma get_all_eq_of_le (s : Store) (u : String)
    (h : (s.facts.filter (fun f => f.user_id == u)).length ≤ 100) :
    get_all_memories s u
      = (s.facts.filter (fun f => f.user_id == u)).map Memory.content := by
  unfold get_all_memories
  apply List.take_of_length_le
  rw [List.length_map]
  exact h

/-- Reduction of `save_memory` when the duplicate scan finds no match. -/
lemma save_memory_of_any_false (s : Store) (u c : String)
    (h : (get_all_memories s u).any
      (fun mem => pyLower (pyStrip mem) == pyLower (pyStrip c)) = false) :
    save_memory s u c
      = ({ facts := s.facts ++ [⟨c, u⟩], nextId := s.nextId + 1 },
         "memory:" ++ toString s.nextId) := by
  unfold save_memory
  simp [h]

/-- Reduction of `save_memory` when the duplicate scan finds a match. -/
lemma save_memory_of_any_true (s : Store) (u c : String)
    (h : (get_all_memories s u).any
      (fun mem => pyLower (pyStrip mem) == pyLower (pyStrip c)) = true) :
    save_memory s u c = (s, "") := by
  unfold save_memory
  simp [h]

/-- Claim C2 as amended — save is idempotent per owner and normalized
content PROVIDED the owner holds at most 99 stored facts and no stored
fact of the owner already matches the trimmed case-folded content: the
first save stores the fact and returns a fresh key, the second save
finds the normalized match, returns the duplicate signal and leaves the
store unchanged, `list_all` grows by exactly 1 (not 2), and exactly one
stored fact of the owner matches the normalized content.  (The
duplicate scan reads `get_all_memories`, whose paging stops at 100
facts, so idempotence can fail from 100 facts on — see the
counterexample.) -/
theorem C2_amended_save_idempotent (s : Store) (u c : String)
    (hlen : (s.facts.filter (fun f => f.user_id == u)).length ≤ 99)
    (hnew : ∀ mem ∈ get_all_memories s u,
      pyLower (pyStrip mem) ≠ pyLower (pyStrip c)) :
    (save_memory s u c).2 ≠ "" ∧
    (save_memory (save_memory s u c).1 u c).2 = "" ∧
    (save_memory (save_memory s u c).1 u c).1 = (save_memory s u c).1 ∧
    (get_all_memories (save_memory s u c).1 u).length
      = (get_all_memories s u).length + 1 ∧
    ((save_memory (save_memory s u c).1 u c).1.facts.filter
      (fun f => f.user_id == u
        && (pyLower (pyStrip f.content) == pyLower (pyStrip c)))).length = 1 := by
  have hany : (get_all_memories s u).any
      (fun mem => pyLower (pyStrip mem) == pyLower (pyStrip c)) = false := by
    rw [List.any_eq_false]
    intro mem hmem
    rw [Bool.not_eq_true, beq_eq_false_iff_ne]
    exact hnew mem hmem
  have hs1 := save_memory_of_any_false s u c hany
  have hs1facts : (save_memory s u c).1.facts = s.facts ++ [⟨c, u⟩] := by
    rw [hs1]
  have hfilter2 : (save_memory s u c).1.facts.filter (fun f => f.user_id == u)
      = s.facts.filter (fun f => f.user_id == u) ++ [⟨c, u⟩] := by
    rw [hs1facts, List.filter_append]
    simp
  have h100 : (s.facts.filter (fun f => f.user_id == u)).length ≤ 100 :=
    le_trans hlen (by norm_num)
  have hGA : get_all_memories s u
      = (s.facts.filter (fun f => f.user_id == u)).map Memory.content :=
    get_all_eq_of_le s u h100
  have hGA1 : get_all_memories (save_memory s u c).1 u
      = get_all_memories s u ++ [c] := by
    have hlen1 : ((save_memory s u c).1.facts.filter
        (fun f => f.user_id == u)).length ≤ 100 := by
      rw [hfilter2, List.length_append]
      simpa using Nat.add_le_add hlen (le_refl 1)
    rw [get_all_eq_of_le _ _ hlen1, hfilter2, List.map_append, hGA]
    simp
  have hany2 : (get_all_memories (save_memory s u c).1 u).any
      (fun mem => pyLower (pyStrip mem) == pyLower (pyStrip c)) = true := by
    rw [hGA1, List.any_append]
    simp
  have hs2 := save_memory_of_any_true (save_memory s u c).1 u c hany2
  refine ⟨?_, ?_, ?_, ?_, ?_⟩
  · rw [hs1]
    show "memory:" ++ toString s.nextId ≠ ""
    intro hEq
    have hd : ("memory:" : String).data ++ (toString s.nextId).data = [] := by
      have hc := congrArg String.data hEq
      rwa [String.data_append] at hc
    exact absurd (List.append_eq_nil.mp hd).1 (by decide)
  · rw [hs2]
  · rw [hs2]
  · rw [hGA1, List.length_append, List.length_singleton]
  · rw [hs2]
    show (((save_memory s u c).1.facts.filter
      (fun f => f.user_id == u
        && (pyLower (pyStrip f.content) == pyLower (pyStrip c)))).length = 1)
    rw [hs1facts, List.filter_append]
    have hnil : s.facts.filter
        (fun f => f.user_id == u
          && (pyLower (pyStrip f.content) == pyLower (pyStrip c))) = [] := by
      apply List.filter_eq_nil_iff.mpr
      intro f hf hQ
      rw [Bool.and_eq_true] at hQ
      obtain ⟨hu, hbeq⟩ := hQ
      have hcontent : f.content ∈ get_all_memories s u := by
        rw [hGA]
        exact List.mem_map.mpr ⟨f, List.mem_filter.mpr ⟨hf, hu⟩, rfl⟩
      exact hnew f.content hcontent (eq_of_beq hbeq)
    rw [hnil]
    simp

/-- Witness for C2's amended theorem: a fresh content on an empty
store. -/
theorem C2_amended_witness :
    ((emptyStore.facts.filter (fun f => f.user_id == "u")).length ≤ 99) ∧
    (∀ mem ∈ get_all_memories emptyStore "u",
      pyLower (pyStrip mem) ≠ pyLower (pyStrip "Tokio")) ∧
    ((save_memory emptyStore "u" "Tokio").2 ≠ "" ∧
      (save_memory (save_memory emptyStore "u" "Tokio").1 "u" "Tokio").2 = "" ∧
      (save_memory (save_memory emptyStore "u" "Tokio").1 "u" "Tokio").1
        = (save_memory emptyStore "u" "Tokio").1 ∧
      (get_all_memories (save_memory emptyStore "u" "Tokio").1 "u").length
        = (get_all_memories emptyStore "u").length + 1 ∧
      ((save_memory (save_memory emptyStore "u" "Tokio").1 "u" "Tokio").1.facts.filter
        (fun f => f.user_id == "u"
          && (pyLower (pyStrip f.content) == pyLower (pyStrip "Tokio")))).length
        = 1) :=
  ⟨by decide, by decide,
   C2_amended_save_idempotent emptyStore "u" "Tokio" (by decide) (by decide)⟩

/-- Claim C2, counterexample: on a store already holding 100 facts for
the owner, the duplicate scan (which reads only the first 100 facts of
the `get_all_memories` window) misses the fact stored by the first
save, so saving the same content twice stores it TWICE — the second
save returns a fresh key instead of the duplicate signal, two stored
facts match the normalized content, and `list_all` (capped at 100)
grows by 0 rather than 1. -/
theorem C2_counterexample :
    (save_memory (save_memory hundredStore "u" "tokio").1 "u" "tokio").2 ≠ "" ∧
    ((save_memory (save_memory hundredStore "u" "tokio").1 "u"
        "tokio").1.facts.filter
      (fun f => f.user_id == "u"
        && (pyLower (pyStrip f.content) == pyLower (pyStrip "tokio")))).length
      = 2 ∧
    (get_all_memories
        (save_memory (save_memory hundredStore "u" "tokio").1 "u" "tokio").1
        "u").length
      = (get_all_memories hundredStore "u").length := by
  decide

/-! ## Rank-fusion theorems -/

/-- An id absent from a ranking has no rank. -/
lemma rankOf_eq_none (l : List (Nat × Nat)) (id : Nat)
    (h : id ∉ l.map Prod.fst) : rankOf l id = none := by
  have hfind : l.find? (fun p => p.1 == id) = none :=
    List.find?_eq_none.mpr (fun p hp hbeq =>
      h (List.mem_map.mpr ⟨p, hp, eq_of_beq hbeq⟩))
  rw [rankOf, hfind]
  rfl

/-- An id present in a ranking resolves to the rank of its first entry. -/
lemma rankOf_of_mem (l : List (Nat × Nat)) (id : Nat)
    (h : id ∈ l.map Prod.fst) :
    ∃ q, l.find? (fun p => p.1 == id) = some q ∧ q.1 = id ∧
      rankOf l id = some q.2 := by
  have hsome : (l.find? (fun p => p.1 == id)).isSome := by
    rw [List.find?_isSome]
    obtain ⟨p, hp, hpid⟩ := List.mem_map.mp h
    exact ⟨p, hp, by rw [hpid]; simp⟩
  obtain ⟨q, hq⟩ := Option.isSome_iff_exists.mp hsome
  have hbeq := List.find?_some hq
  exact ⟨q, hq, eq_of_beq hbeq, by rw [rankOf, hq]; rfl⟩

/-- The fused score computed by the SQL join equals the spec's
reciprocal-rank formula. -/
lemma fusedScore_eq_specScore (k : ℚ) (a b : List (Nat × Nat)) (id : Nat)
    (hmem : id ∈ a.map Prod.fst ∨ id ∈ b.map Prod.fst) :
    fusedScore k a b id = some (specScore k a b id) := by
  by_cases ha : id ∈ a.map Prod.fst
  · obtain ⟨q, hq, hq1, hrankA⟩ := rankOf_of_mem a id ha
    rw [fusedScore, fuseRows, List.find?_map, fullOuterJoin, List.find?_append,
      List.find?_map]
    simp only [Function.comp_def]
    rw [hq]
    simp [specScore, hrankA, hq1]
  · have hb : id ∈ b.map Prod.fst := hmem.resolve_left ha
    have hrankA : rankOf a id = none := rankOf_eq_none a id ha
    have hfindA : a.find? (fun p => p.1 == id) = none :=
      List.find?_eq_none.mpr (fun p hp hbeq =>
        ha (List.mem_map.mpr ⟨p, hp, eq_of_beq hbeq⟩))
    obtain ⟨q, hq, hq1, hrankB⟩ := rankOf_of_mem b id hb
    rw [fusedScore, fuseRows, List.find?_map, fullOuterJoin, List.find?_append,
      List.find?_map]
    simp only [Function.comp_def]
    rw [hfindA, List.find?_map]
    simp only [Function.comp_def]
    rw [List.find?_filter]
    have hpred : (fun p : Nat × Nat =>
        decide ((rankOf a p.1 == none) = true ∧ (p.1 == id) = true))
        = (fun p : Nat × Nat => p.1 == id) := by
      funext p
      by_cases hp : p.1 = id
      · rw [hp, hrankA]
        simp
      · have : (p.1 == id) = false := beq_eq_false_iff_ne.mpr hp
        simp [this]
    rw [hpred, hq]
    simp [specScore, hrankA, hrankB, hq1]

/-- Claim C1 — Rank fusion scoring: for every pair of rank-ordered input
lists (ids unique within each list) and positive `k`, the fused score of
each id appearing in either list is `1/(k + rank_a)` if present in
`list_a` (else 0) plus `1/(k + rank_b)` if present in `list_b` (else 0);
in particular for `list_a = [(A,1),(B,2)]`, `list_b = [(B,1),(C,2)]` and
`k = 60`, `score(B) > score(A)` and `score(B) > score(C)`. -/
theorem C1_rrf_scoring :
    (∀ (k : ℚ) (a b : List (Nat × Nat)) (id : Nat), 0 < k →
      (a.map Prod.fst).Nodup → (b.map Prod.fst).Nodup →
      (id ∈ a.map Prod.fst ∨ id ∈ b.map Prod.fst) →
      fusedScore k a b id = some (specScore k a b id)) ∧
    specScore 60 rrfExampleA rrfExampleB 1
      > specScore 60 rrfExampleA rrfExampleB 0 ∧
    specScore 60 rrfExampleA rrfExampleB 1
      > specScore 60 rrfExampleA rrfExampleB 2 := by
  refine ⟨fun k a b id _ _ _ hmem => fusedScore_eq_specScore k a b id hmem,
    ?_, ?_⟩
  · rw [specScore, specScore,
      show rankOf rrfExampleA 1 = some 2 from rfl,
      show rankOf rrfExampleB 1 = some 1 from rfl,
      show rankOf rrfExampleA 0 = some 1 from rfl,
      show rankOf rrfExampleB 0 = none from rfl]
    simp only [rrfTerm]
    norm_num
  · rw [specScore, specScore,
      show rankOf rrfExampleA 1 = some 2 from rfl,
      show rankOf rrfExampleB 1 = some 1 from rfl,
      show rankOf rrfExampleA 2 = none from rfl,
      show rankOf rrfExampleB 2 = some 2 from rfl]
    simp only [rrfTerm]
    norm_num

/-- Witness for C1's universal part on the spec example (`B = 1`). -/
theorem C1_witness :
    (0 < (60 : ℚ)) ∧ (rrfExampleA.map Prod.fst).Nodup ∧
      (rrfExampleB.map Prod.fst).Nodup ∧
      (1 ∈ rrfExampleA.map Prod.fst ∨ 1 ∈ rrfExampleB.map Prod.fst) ∧
      fusedScore 60 rrfExampleA rrfExampleB 1
        = some (specScore 60 rrfExampleA rrfExampleB 1) :=
  ⟨by norm_num, by decide, by decide, Or.inl (by decide),
   C1_rrf_scoring.1 60 rrfExampleA rrfExampleB 1 (by norm_num) (by decide)
     (by decide) (Or.inl (by decide))⟩

/-- Ids surviving fusion come from the fused union, in any run of
`fuse`. -/
lemma fuse_ids_mem (k : ℚ) (a b : List (Nat × Nat)) (limit : Nat)
    (p : Nat × ℚ) (hp : p ∈ fuse k a b limit) : p.1 ∈ fusedIds a b := by
  have hp1 : p ∈ (fuseRows k a b).mergeSort scoreGe :=
    List.Sublist.mem hp (List.take_sublist _ _)
  have hp2 : p ∈ fuseRows k a b :=
    (List.mergeSort_perm (fuseRows k a b) scoreGe).mem_iff.mp hp1
  rw [fuseRows] at hp2
  obtain ⟨r, hr, hrp⟩ := List.mem_map.mp hp2
  rw [fusedIds]
  exact List.mem_map.mpr ⟨r, hr, by rw [← hrp]⟩

/-- Claim C4, counterexample: the SQL `ORDER BY score DESC` fixes no
order among equal-score rows, so the claimed stable tie-break (ids in
first-encountered order, scanning `list_a` then `list_b`) is not a
property of the code.  With `list_a = [(1,1)]`, `list_b = [(2,1)]` and
`k = 60`, ids 1 and 2 tie, the first-encountered order is `[1, 2]`, yet
the output listing id 2 BEFORE id 1 also satisfies everything the SQL
guarantees (`isValidFuseOutput`). -/
theorem C4_counterexample :
    isValidFuseOutput 60 tieA tieB 2
      [(2, specScore 60 tieA tieB 2), (1, specScore 60 tieA tieB 1)] ∧
    fusedIds tieA tieB = [1, 2] ∧
    specScore 60 tieA tieB 1 = specScore 60 tieA tieB 2 := by
  have hs1 : specScore 60 tieA tieB 1 = 1 / 61 := by
    rw [specScore, show rankOf tieA 1 = some 1 from rfl,
      show rankOf tieB 1 = none from rfl]
    norm_num [rrfTerm]
  have hs2 : specScore 60 tieA tieB 2 = 1 / 61 := by
    rw [specScore, show rankOf tieA 2 = none from rfl,
      show rankOf tieB 2 = some 1 from rfl]
    norm_num [rrfTerm]
  have hfst : [(2, specScore 60 tieA tieB 2),
      (1, specScore 60 tieA tieB 1)].map Prod.fst = [2, 1] := rfl
  refine ⟨⟨?_, ?_, ?_, ?_, ?_⟩, rfl, hs1.trans hs2.symm⟩
  · rw [hfst]
    decide
  · intro p hp
    rw [List.mem_cons, List.mem_cons] at hp
    rcases hp with rfl | rfl | hp
    · exact ⟨by decide, rfl⟩
    · exact ⟨by decide, rfl⟩
    · exact absurd hp (List.not_mem_nil p)
  · rfl
  · exact List.chain'_cons.mpr ⟨by rw [hs1, hs2], List.chain'_singleton _⟩
  · intro id hid hnot
    rw [show fusedIds tieA tieB = [1, 2] from rfl] at hid
    rw [hfst] at hnot
    rw [List.mem_cons, List.mem_cons] at hid
    rcases hid with rfl | rfl | hid
    · exact absurd (by decide : (1 : Nat) ∈ [2, 1]) hnot
    · exact absurd (by decide : (2 : Nat) ∈ [2, 1]) hnot
    · exact absurd hid (List.not_mem_nil id)

/-- Claim C4 as amended — Fusion output order: for every `k`, input
rankings and limit, the fused output is ordered by non-increasing fused
score, is truncated to at most `limit` rows, and draws its ids from the
fused union; the relative order of ids with EQUAL fused score is left
unspecified by the code (see the counterexample). -/
theorem C4_amended_fusion_order (k : ℚ) (a b : List (Nat × Nat))
    (limit : Nat) :
    (fuse k a b limit).length ≤ limit ∧
    List.Chain' (fun p q : Nat × ℚ => q.2 ≤ p.2) (fuse k a b limit) ∧
    ((fuse k a b limit).map Prod.fst).all
      (fun id => (fusedIds a b).contains id) = true := by
  refine ⟨List.length_take_le _ _, ?_, ?_⟩
  · have htrans : ∀ (x y z : Nat × ℚ), scoreGe x y = true →
        scoreGe y z = true → scoreGe x z = true := by
      intro x y z hxy hyz
      simp only [scoreGe, decide_eq_true_eq] at *
      exact le_trans hyz hxy
    have htotal : ∀ (x y : Nat × ℚ), (scoreGe x y || scoreGe y x) = true := by
      intro x y
      simp only [scoreGe, Bool.or_eq_true, decide_eq_true_eq]
      exact le_total y.2 x.2
    have hs := List.sorted_mergeSort htrans htotal (fuseRows k a b)
    have hs2 : ((fuseRows k a b).mergeSort scoreGe).Pairwise
        (fun p q : Nat × ℚ => q.2 ≤ p.2) :=
      hs.imp (fun h => by simpa [scoreGe] using h)
    exact (hs2.take).chain'
  · rw [List.all_eq_true]
    intro id hid
    obtain ⟨p, hp, hpid⟩ := List.mem_map.mp hid
    exact (List.elem_iff).mpr (hpid ▸ fuse_ids_mem k a b limit p hp)

/-! ## Hybrid-retriever theorems -/

/-- Length of `filterMap` when every element maps to `some`. -/
lemma length_filterMap_of_isSome {α β : Type} (f : α → Option β)
    (l : List α) (h : ∀ x ∈ l, (f x).isSome = true) :
    (l.filterMap f).length = l.length := by
  induction l with
  | nil => rfl
  | cons x xs ih =>
    rw [List.filterMap_cons]
    obtain ⟨y, hy⟩ :=
      Option.isSome_iff_exists.mp (h x (List.mem_cons_self x xs))
    rw [hy]
    simp only [List.length_cons]
    rw [ih (fun z hz => h z (List.mem_cons_of_mem x hz))]

/-- Number of rows entering the `ORDER BY`: one per fused id. -/
lemma fuse_length (k : ℚ) (a b : List (Nat × Nat)) (limit : Nat) :
    (fuse k a b limit).length = min limit (fusedIds a b).length := by
  rw [fuse, List.length_take, List.length_mergeSort, fuseRows, fusedIds,
    List.length_map, List.length_map]

/-- Claim C7 — Hybrid-retrieve result bound: for every catalog, pair of
input rankings and `max_results = n`, the retriever returns at most `n`
formatted documents; and when the rankings' ids are unique and every
fused id resolves to a catalog row (as holds for rankings drawn from
the `products` table itself), the number returned is exactly `n` capped
by the number of distinct ids in the fused union — so fewer than `n`
documents are returned only when fewer than `n` distinct ids are
present in the fused union. -/
theorem C7_retrieve_result_bound :
    (∀ (db : List Product) (semantic keyword : List (Nat × Nat)) (n : Nat),
      (get_relevant_documents db semantic keyword n).length ≤ n) ∧
    (∀ (db : List Product) (semantic keyword : List (Nat × Nat)) (n : Nat),
      (semantic.map Prod.fst).Nodup → (keyword.map Prod.fst).Nodup →
      (∀ id ∈ fusedIds semantic keyword, ∃ p ∈ db, p.id = id) →
      (get_relevant_documents db semantic keyword n).length
        = min n (fusedIds semantic keyword).length) := by
  constructor
  · intro db semantic keyword n
    calc (get_relevant_documents db semantic keyword n).length
        ≤ ((fuse 60 semantic keyword n).map Prod.fst).length :=
          List.length_filterMap_le _ _
      _ = (fuse 60 semantic keyword n).length := List.length_map _ _
      _ ≤ n := by rw [fuse_length]; exact Nat.min_le_left _ _
  · intro db semantic keyword n _ _ hdb
    rw [get_relevant_documents]
    have hall : ∀ pid ∈ (fuse 60 semantic keyword n).map Prod.fst,
        ((db.find? (fun p => p.id == pid)).map formatDoc).isSome = true := by
      intro pid hpid
      obtain ⟨p, hp, hpid2⟩ := List.mem_map.mp hpid
      obtain ⟨r, hr, hrid⟩ := hdb pid (hpid2 ▸ fuse_ids_mem 60 _ _ n p hp)
      have hfind : (db.find? (fun p => p.id == pid)).isSome = true := by
        rw [List.find?_isSome]
        exact ⟨r, hr, by rw [hrid]; simp⟩
      obtain ⟨v, hv⟩ := Option.isSome_iff_exists.mp hfind
      rw [hv]
      rfl
    rw [length_filterMap_of_isSome _ _ hall, List.length_map, fuse_length]

/-- Witness for C7 on a concrete catalog and rankings. -/
theorem C7_witness :
    ((tieA.map Prod.fst).Nodup ∧ (tieB.map Prod.fst).Nodup ∧
      (∀ id ∈ fusedIds tieA tieB, ∃ p ∈ demoCatalog, p.id = id)) ∧
    (get_relevant_documents demoCatalog tieA tieB 3).length
      = min 3 (fusedIds tieA tieB).length :=
  ⟨⟨by decide, by decide, by decide⟩,
   C7_retrieve_result_bound.2 demoCatalog tieA tieB 3 (by decide) (by decide)
     (by decide)⟩
